import Mathlib

/-!
  # Verification of the telephony/voice-model bridge server

  A shallow embedding of the call-bridge server: one WebSocket connection
  from the telephony platform (downstream) is bound to one WebSocket
  connection to the realtime voice-model service (upstream). The embedding
  models the per-connection session state of the fully featured variant
  (transcript assembly, finalize latch, call-report emission) as an explicit
  state machine driven by socket events, plus a second, smaller machine for
  the variant carrying the bounded pre-connect audio buffer.

  JavaScript specifics are made explicit: string truthiness (`""` is falsy)
  is `jsTruthy`; `Math.round(d / 1000)` on millisecond integers is
  `(d + 500) / 1000` in floor division; socket sends guarded by
  `readyState === OPEN` are gated on explicit `Bool` fields; timestamps
  (`Date.now()`) are `Int` parameters supplied with each event.
-/

namespace CareBridge

/-- JavaScript truthiness of an optional string: absent and empty are falsy. -/
def jsTruthy : Option String → Bool
  | none => false
  | some s => s != ""

/-- A parsed message from the upstream (voice-model) socket, with the fields
the handlers inspect: `type`, `delta`, `text`, and `transcription.text`. -/
structure OAMsg where
  type : String
  delta : Option String := none
  text : Option String := none
  transcriptionText : Option String := none
  deriving Repr, DecidableEq

/-- A parsed message from the downstream (telephony) socket: `event`, the
`start.streamSid` and `start.callSid` fields, and the `media.payload` field. -/
structure TwMsg where
  event : String
  streamSid : Option String := none
  callSid : Option String := none
  payload : Option String := none
  deriving Repr, DecidableEq

/-- Outbound JSON frames to the upstream socket. -/
inductive OAOut where
  | sessionUpdate
  | responseCreate
  | append (audio : String)
  | commit
  deriving Repr, DecidableEq

/-- Per-connection query metadata parsed from the request URL. -/
structure Meta where
  agency_id : Option String := none
  callSid : Option String := none
  fromNum : Option String := none
  toNum : Option String := none
  deriving Repr, DecidableEq

/-- The call report payload assembled by `finalizeAndReport`. Timestamps are
kept as millisecond integers rather than ISO strings. -/
structure CallReport where
  agency_id : Option String
  callSid : String
  streamSid : Option String
  fromNum : Option String
  toNum : Option String
  started_at : Int
  ended_at : Int
  duration_seconds : Int
  transcript : String
  summary : Option String
  reason : String
  deriving Repr, DecidableEq

/-- Observable effects of one handler invocation: sends on either socket,
socket closes, opening the upstream connection, and report emission. -/
inductive Action where
  | sendOA (m : OAOut)
  | sendTw (streamSid : String) (payload : String)
  | closeOA (code : Nat) (reason : String)
  | closeTw (code : Nat) (reason : String)
  | connectOA
  | emitReport (r : CallReport)
  deriving Repr, DecidableEq

/-- The per-connection session state of the full bridge variant: the mutable
closure variables of its connection handler, plus explicit open flags for the
two sockets standing for `readyState === OPEN`. -/
structure Session where
  meta : Meta
  ctx : String
  streamSid : Option String
  callSidFromStart : Option String
  openaiReady : Bool
  openaiOpen : Bool
  twilioOpen : Bool
  startedAt : Int
  endedAt : Option Int
  finalized : Bool
  transcriptLines : List String
  assistantBuf : String
  deriving Repr, DecidableEq

/-- Fresh session state at connection time `t0` (the upstream socket is still
connecting, so it is not yet open or ready). -/
def initSession (meta : Meta) (ctx : String) (t0 : Int) : Session :=
  { meta := meta
    ctx := ctx
    streamSid := none
    callSidFromStart := none
    openaiReady := false
    openaiOpen := false
    twilioOpen := true
    startedAt := t0
    endedAt := none
    finalized := false
    transcriptLines := []
    assistantBuf := "" }

/-- JavaScript `String.prototype.trim`: strip whitespace characters from both
ends, modelled by structural recursion on the character list so that it is
kernel-computable. -/
def jsTrim (s : String) : String :=
  ⟨((s.data.dropWhile Char.isWhitespace).reverse.dropWhile Char.isWhitespace).reverse⟩

/-- `flushAssistantLine`: trim the assistant accumulator; push one assistant
line when the trimmed text is non-empty; always reset the accumulator. -/
def flushAssistantLine (s : Session) : Session :=
  if jsTrim s.assistantBuf != "" then
    { s with transcriptLines := s.transcriptLines ++ ["Assistant: " ++ jsTrim s.assistantBuf],
             assistantBuf := "" }
  else
    { s with assistantBuf := "" }

/-- `Math.round((endedAt - startedAt) / 1000)` on millisecond integers:
round half toward positive infinity, i.e. floor of `(d + 500) / 1000`. -/
def roundDivThousand (d : Int) : Int := (d + 500) / 1000

/-- `Math.max(0, Math.round((endedAt - startedAt) / 1000))`. -/
def durationSeconds (startedAt endedAt : Int) : Int :=
  max 0 (roundDivThousand (endedAt - startedAt))

/-- The `callSid` fallback chain of the report:
`meta.callSid || callSidFromStart || (streamSid ? "stream_"+streamSid : "unknown_"+ctx)`. -/
def reportCallSid (s : Session) : String :=
  if jsTruthy s.meta.callSid then s.meta.callSid.getD ""
  else if jsTruthy s.callSidFromStart then s.callSidFromStart.getD ""
  else if jsTruthy s.streamSid then "stream_" ++ s.streamSid.getD ""
  else "unknown_" ++ s.ctx

/-- `finalizeAndReport(reason)`: return immediately when the `finalized`
latch is already set; otherwise set the latch, default `endedAt` to now,
compute the duration, flush the assistant accumulator, assemble the report
payload and emit it. -/
def finalizeAndReport (t : Int) (reason : String) (s : Session) : Session × List Action :=
  if s.finalized then (s, [])
  else
    let ended := s.endedAt.getD t
    let s1 : Session := { s with finalized := true, endedAt := some ended }
    let s2 := flushAssistantLine s1
    let payload : CallReport :=
      { agency_id := s2.meta.agency_id
        callSid := reportCallSid s2
        streamSid := s2.streamSid
        fromNum := s2.meta.fromNum
        toNum := s2.meta.toNum
        started_at := s2.startedAt
        ended_at := ended
        duration_seconds := durationSeconds s2.startedAt ended
        transcript := jsTrim (String.intercalate "\n" s2.transcriptLines)
        summary := none
        reason := reason }
    (s2, [Action.emitReport payload])

/-- `cleanup(reason)`: clear the keepalive timer (no session field), then
close each socket that is still open with code 1000. -/
def cleanup (reason : String) (s : Session) : Session × List Action :=
  let oa : List Action := if s.openaiOpen then [Action.closeOA 1000 reason] else []
  let tw : List Action := if s.twilioOpen then [Action.closeTw 1000 reason] else []
  ({ s with openaiOpen := false, twilioOpen := false }, oa ++ tw)

/-- First caller-transcription block: on
`conversation.item.input_audio_transcription.completed`, append a caller line
when `transcription.text` is truthy. -/
def oaTranscriptionA (m : OAMsg) (s : Session) : Session :=
  if m.type = "conversation.item.input_audio_transcription.completed" then
    if jsTruthy m.transcriptionText then
      { s with transcriptLines :=
          s.transcriptLines ++ ["Caller: " ++ m.transcriptionText.getD ""] }
    else s
  else s

/-- Fallback caller-transcription block: on
`input_audio_transcription.completed`, append a caller line from
`text || transcription.text` when truthy. -/
def oaTranscriptionB (m : OAMsg) (s : Session) : Session :=
  if m.type = "input_audio_transcription.completed" then
    if jsTruthy (if jsTruthy m.text then m.text else m.transcriptionText) then
      { s with transcriptLines := s.transcriptLines ++
          ["Caller: " ++ (if jsTruthy m.text then m.text else m.transcriptionText).getD ""] }
    else s
  else s

/-- Assistant text-delta block: fold a truthy `delta` of either recognized
delta type name into the accumulator. -/
def oaTextDelta (m : OAMsg) (s : Session) : Session :=
  if (m.type = "response.output_text.delta" || m.type = "response.text.delta")
      && jsTruthy m.delta then
    { s with assistantBuf := s.assistantBuf ++ m.delta.getD "" }
  else s

/-- Assistant text-done block: flush the accumulator on either recognized
done type name. -/
def oaTextDone (m : OAMsg) (s : Session) : Session :=
  if m.type = "response.output_text.done" || m.type = "response.text.done" then
    flushAssistantLine s
  else s

/-- Audio-delta relay block: forward the agent audio chunk downstream only
when `streamSid` is truthy; the send itself is gated on the downstream socket
being open. -/
def oaRelay (m : OAMsg) (s : Session) : Session × List Action :=
  if ((m.type = "response.audio.delta" && jsTruthy m.delta)
      || (m.type = "output_audio.delta" && jsTruthy m.delta))
      && jsTruthy s.streamSid then
    (s, if s.twilioOpen then [Action.sendTw (s.streamSid.getD "") (m.delta.getD "")] else [])
  else (s, [])

/-- The upstream message handler: drop the frame on an `error` event;
otherwise run the caller-transcription blocks, the assistant text blocks and
the audio relay block in source order. -/
def oaMsgHandler (s : Session) (m : OAMsg) : Session × List Action :=
  if m.type = "error" then (s, [])
  else oaRelay m (oaTextDone m (oaTextDelta m (oaTranscriptionB m (oaTranscriptionA m s))))

/-- The shared termination tail of the stop, close and error handlers:
finalize with `finReason` and then run `cleanup(cleanReason)`. -/
def terminate (t : Int) (finReason cleanReason : String) (s : Session) :
    Session × List Action :=
  let fin := finalizeAndReport t finReason s
  let cl := cleanup cleanReason fin.1
  (cl.1, fin.2 ++ cl.2)

/-- The downstream message handler: ignore frames with a falsy `event`;
`start` captures `streamSid`/`callSid` (falsy fields become null) and resets
`startedAt`; `media` forwards a truthy payload upstream only when the
upstream session is ready and its socket open; `stop` records `endedAt`,
commits and closes the upstream socket when open, finalizes, and cleans up.
Unknown events fall through unchanged. -/
def twMsgHandler (t : Int) (s : Session) (m : TwMsg) : Session × List Action :=
  if m.event = "" then (s, [])
  else if m.event = "start" then
    ({ s with
        streamSid := if jsTruthy m.streamSid then m.streamSid else none
        callSidFromStart := if jsTruthy m.callSid then m.callSid else none
        startedAt := t }, [])
  else if m.event = "media" then
    if jsTruthy m.payload then
      if s.openaiReady && s.openaiOpen then
        (s, [Action.sendOA (OAOut.append (m.payload.getD ""))])
      else (s, [])
    else (s, [])
  else if m.event = "stop" then
    let pre : List Action :=
      if s.openaiOpen then [Action.sendOA OAOut.commit, Action.closeOA 1000 "twilio_stop"]
      else []
    let term := terminate t "twilio_stop" "twilio_stop"
      { s with endedAt := some (s.endedAt.getD t), openaiOpen := false }
    (term.1, pre ++ term.2)
  else (s, [])

/-- Socket events delivered to one session of the full bridge variant. -/
inductive Ev where
  | oaOpen
  | oaMsg (m : OAMsg)
  | oaClose (code : Nat)
  | oaError
  | twMsg (m : TwMsg)
  | twClose
  | twError
  deriving Repr, DecidableEq

/-- One event-handler invocation on the session, at wall-clock time `t`.
`oaOpen` sends the session-configuration and greeting frames and marks the
session ready; `oaClose`/`oaError` record `endedAt`, finalize with an
upstream reason tag, and clean up (closing the downstream socket);
`twClose`/`twError` do the same with a downstream reason tag. -/
def step (t : Int) (s : Session) (e : Ev) : Session × List Action :=
  match e with
  | Ev.oaOpen =>
      ({ s with openaiOpen := true, openaiReady := true },
        [Action.sendOA OAOut.sessionUpdate, Action.sendOA OAOut.responseCreate])
  | Ev.oaMsg m => oaMsgHandler s m
  | Ev.oaClose code =>
      terminate t ("openai_closed_" ++ toString code) ("openai_closed_" ++ toString code)
        { s with openaiReady := false, openaiOpen := false,
                 endedAt := some (s.endedAt.getD t) }
  | Ev.oaError =>
      terminate t "openai_error" "openai_error"
        { s with openaiReady := false, endedAt := some (s.endedAt.getD t) }
  | Ev.twMsg m => twMsgHandler t s m
  | Ev.twClose =>
      terminate t "twilio_ws_closed" "twilio_closed"
        { s with twilioOpen := false, endedAt := some (s.endedAt.getD t) }
  | Ev.twError =>
      terminate t "twilio_ws_error" "twilio_error"
        { s with endedAt := some (s.endedAt.getD t) }

/-- Run a timestamped event trace against a session, collecting all actions. -/
def run (s : Session) : List (Int × Ev) → Session × List Action
  | [] => (s, [])
  | te :: rest =>
      let st := step te.1 s te.2
      let rst := run st.1 rest
      (rst.1, st.2 ++ rst.2)

/-- The reports among a list of actions, in emission order. -/
def reportsOf (acts : List Action) : List CallReport :=
  acts.filterMap fun a =>
    match a with
    | Action.emitReport r => some r
    | _ => none

/-- The connection handler entry of the full variant: with no voice-model
credential configured, close the downstream socket at once with code 1011 and
create no session; otherwise create the session and open the upstream socket. -/
def handleConnection (apiKey : String) (meta : Meta) (ctx : String) (t0 : Int) :
    Option Session × List Action :=
  if apiKey = "" then
    (none, [Action.closeTw 1011 "Missing OPENAI_API_KEY"])
  else
    (some (initSession meta ctx t0), [Action.connectOA])

/-- An HTTP request issued by the report emitter. -/
structure HttpRequest where
  url : String
  headers : List (String × String)
  body : String
  deriving Repr, DecidableEq

/-- The outcome of the one `fetch` call, supplied as an oracle: either a
response (ok flag, status, body text) or a thrown exception message. -/
inductive FetchOutcome where
  | response (resOk : Bool) (status : Nat) (body : String)
  | thrown (msg : String)
  deriving Repr, DecidableEq

/-- The value `postCallReport` resolves to: a skip record, a response record,
or a caught-error record. It never throws past this boundary. -/
inductive DeliveryResult where
  | skipped (reason : String)
  | response (resOk : Bool) (status : Nat) (body : String)
  | caught (errMsg : String)
  deriving Repr, DecidableEq

/-- `postCallReport(payload)`: skip without any request when the destination
URL or the shared secret is missing; otherwise issue exactly one POST with the
shared secret in the `X-Call-Report-Secret` header and fold the fetch outcome
(response or thrown exception) into a returned result value. -/
def postCallReport (url secret : String) (payload : String) (outcome : FetchOutcome) :
    DeliveryResult × List HttpRequest :=
  if url = "" then (DeliveryResult.skipped "missing CALL_REPORT_URL", [])
  else if secret = "" then (DeliveryResult.skipped "missing CALL_REPORT_SECRET", [])
  else
    let req : HttpRequest :=
      { url := url
        headers := [("Content-Type", "application/json"), ("X-Call-Report-Secret", secret)]
        body := payload }
    match outcome with
    | FetchOutcome.response resOk status body => (DeliveryResult.response resOk status body, [req])
    | FetchOutcome.thrown msg => (DeliveryResult.caught msg, [req])

end CareBridge

namespace Buffered

/-!
  The buffered bridge variant: the same downstream/upstream pairing, without
  transcripts or reports, but with the bounded `pendingAudio` queue holding
  caller audio that arrives before the upstream socket opens. Capacity is
  200 with a drop-oldest overflow policy (`push` then `shift` past 200).
-/

open CareBridge (TwMsg OAOut jsTruthy)

/-- Observable effects of the buffered variant. -/
inductive Act3 where
  | sendOA (m : OAOut)
  | sendTw (streamSid : String) (payload : String)
  | closeOA
  | closeTw
  deriving Repr, DecidableEq

/-- Session state of the buffered variant. -/
structure S3 where
  streamSid : Option String
  callSid : Option String
  openaiReady : Bool
  openaiOpen : Bool
  twilioOpen : Bool
  pendingAudio : List String
  deriving Repr, DecidableEq

/-- Fresh state at connection time (upstream socket connecting). -/
def init3 : S3 :=
  { streamSid := none
    callSid := none
    openaiReady := false
    openaiOpen := false
    twilioOpen := true
    pendingAudio := [] }

/-- `pendingAudio.push(payload); if (pendingAudio.length > 200) pendingAudio.shift()`:
append at the back, then drop the front element once the length passes 200. -/
def pushCap (buf : List String) (p : String) : List String :=
  let b := buf ++ [p]
  if 200 < b.length then b.tail else b

/-- `cleanup(why)`: close each socket that is still open. -/
def cleanup3 (s : S3) : S3 × List Act3 :=
  let oa : List Act3 := if s.openaiOpen then [Act3.closeOA] else []
  let tw : List Act3 := if s.twilioOpen then [Act3.closeTw] else []
  ({ s with openaiOpen := false, twilioOpen := false }, oa ++ tw)

/-- Socket events of the buffered variant. -/
inductive Ev3 where
  | oaOpen
  | oaClose
  | oaError
  | twMsg (m : TwMsg)
  | twClose
  | twError
  deriving Repr, DecidableEq

/-- One event-handler invocation. The upstream open handler sends the session
configuration, marks the session ready, and drains `pendingAudio` oldest-first
into `input_audio_buffer.append` frames; the media handler sends directly when
ready and open, and otherwise enqueues with the 200-entry drop-oldest cap. -/
def step3 (s : S3) (e : Ev3) : S3 × List Act3 :=
  match e with
  | Ev3.oaOpen =>
      let s := { s with openaiOpen := true, openaiReady := true }
      let flushed := s.pendingAudio.map fun p => Act3.sendOA (OAOut.append p)
      ({ s with pendingAudio := [] }, Act3.sendOA OAOut.sessionUpdate :: flushed)
  | Ev3.oaClose =>
      cleanup3 { s with openaiOpen := false }
  | Ev3.oaError =>
      cleanup3 s
  | Ev3.twMsg m =>
      if m.event = "" then (s, [])
      else if m.event = "start" then
        ({ s with
            streamSid := if jsTruthy m.streamSid then m.streamSid else none
            callSid := if jsTruthy m.callSid then m.callSid else none }, [])
      else if m.event = "media" then
        if jsTruthy m.payload then
          if s.openaiReady && s.openaiOpen then
            (s, [Act3.sendOA (OAOut.append (m.payload.getD ""))])
          else
            ({ s with pendingAudio := pushCap s.pendingAudio (m.payload.getD "") }, [])
        else (s, [])
      else if m.event = "stop" then
        cleanup3 s
      else (s, [])
  | Ev3.twClose => cleanup3 { s with twilioOpen := false }
  | Ev3.twError => cleanup3 s

/-- Run an event trace against the buffered variant, collecting all actions. -/
def run3 (s : S3) : List Ev3 → S3 × List Act3
  | [] => (s, [])
  | e :: rest =>
      let st := step3 s e
      let rst := run3 st.1 rest
      (rst.1, st.2 ++ rst.2)

/-- The payloads of `input_audio_buffer.append` frames among the actions, in
send order. -/
def appendsOf (acts : List Act3) : List String :=
  acts.filterMap fun a =>
    match a with
    | Act3.sendOA (OAOut.append p) => some p
    | _ => none

/-- A downstream media frame carrying `payload`. -/
def mediaMsg (payload : String) : TwMsg :=
  { event := "media", payload := some payload }

end Buffered

namespace CareBridge

/-! ## Field-preservation lemmas -/

theorem flush_finalized (s : Session) : (flushAssistantLine s).finalized = s.finalized := by
  unfold flushAssistantLine; split <;> rfl

theorem flush_streamSid (s : Session) : (flushAssistantLine s).streamSid = s.streamSid := by
  unfold flushAssistantLine; split <;> rfl

theorem flush_endedAt (s : Session) : (flushAssistantLine s).endedAt = s.endedAt := by
  unfold flushAssistantLine; split <;> rfl

theorem flush_startedAt (s : Session) : (flushAssistantLine s).startedAt = s.startedAt := by
  unfold flushAssistantLine; split <;> rfl

theorem flush_openaiOpen (s : Session) : (flushAssistantLine s).openaiOpen = s.openaiOpen := by
  unfold flushAssistantLine; split <;> rfl

theorem flush_twilioOpen (s : Session) : (flushAssistantLine s).twilioOpen = s.twilioOpen := by
  unfold flushAssistantLine; split <;> rfl

theorem flush_openaiReady (s : Session) : (flushAssistantLine s).openaiReady = s.openaiReady := by
  unfold flushAssistantLine; split <;> rfl

theorem flush_meta (s : Session) : (flushAssistantLine s).meta = s.meta := by
  unfold flushAssistantLine; split <;> rfl

theorem flush_assistantBuf (s : Session) : (flushAssistantLine s).assistantBuf = "" := by
  unfold flushAssistantLine; split <;> rfl

/-! ## Report extraction lemmas -/

theorem reportsOf_nil : reportsOf [] = [] := rfl

theorem reportsOf_append (a b : List Action) :
    reportsOf (a ++ b) = reportsOf a ++ reportsOf b :=
  List.filterMap_append a b _

theorem reportsOf_cleanup (r : String) (s : Session) : reportsOf (cleanup r s).2 = [] := by
  unfold cleanup reportsOf; split <;> split <;> simp

theorem cleanup_fst (r : String) (s : Session) :
    (cleanup r s).1 = { s with openaiOpen := false, twilioOpen := false } := rfl

theorem finalize_fst_finalized (t : Int) (r : String) (s : Session) :
    (finalizeAndReport t r s).1.finalized = true := by
  unfold finalizeAndReport
  split
  · next h => exact h
  · simp [flush_finalized]

theorem finalize_of_finalized (t : Int) (r : String) (s : Session) (h : s.finalized = true) :
    finalizeAndReport t r s = (s, []) := by
  unfold finalizeAndReport; simp [h]

theorem reportsOf_finalize_len (t : Int) (r : String) (s : Session) :
    (reportsOf (finalizeAndReport t r s).2).length = if s.finalized = true then 0 else 1 := by
  unfold finalizeAndReport
  split
  · next h => simp [h, reportsOf]
  · next h => simp [Bool.not_eq_true] at h; simp [h, reportsOf]

theorem finalize_fst_streamSid (t : Int) (r : String) (s : Session) :
    (finalizeAndReport t r s).1.streamSid = s.streamSid := by
  unfold finalizeAndReport
  split
  · rfl
  · simp [flush_streamSid]

theorem finalize_fst_endedAt_of_some (t : Int) (r : String) (s : Session) (x : Int)
    (h : s.endedAt = some x) : (finalizeAndReport t r s).1.endedAt = some x := by
  unfold finalizeAndReport
  split
  · exact h
  · simp [flush_endedAt, h]

theorem finalize_fst_twilioOpen (t : Int) (r : String) (s : Session) :
    (finalizeAndReport t r s).1.twilioOpen = s.twilioOpen := by
  unfold finalizeAndReport
  split
  · rfl
  · simp [flush_twilioOpen]

theorem finalize_fst_openaiOpen (t : Int) (r : String) (s : Session) :
    (finalizeAndReport t r s).1.openaiOpen = s.openaiOpen := by
  unfold finalizeAndReport
  split
  · rfl
  · simp [flush_openaiOpen]

theorem reportsOf_finalize_reason (t : Int) (r : String) (s : Session)
    (h : s.finalized = false) :
    (reportsOf (finalizeAndReport t r s).2).map CallReport.reason = [r] := by
  unfold finalizeAndReport; simp [h, reportsOf]

end CareBridge

namespace CareBridge

/-! ## Upstream message handler lemmas -/

theorem oaTranscriptionA_finalized (m : OAMsg) (s : Session) :
    (oaTranscriptionA m s).finalized = s.finalized := by
  unfold oaTranscriptionA; split_ifs <;> rfl

theorem oaTranscriptionB_finalized (m : OAMsg) (s : Session) :
    (oaTranscriptionB m s).finalized = s.finalized := by
  unfold oaTranscriptionB; split_ifs <;> rfl

theorem oaTextDelta_finalized (m : OAMsg) (s : Session) :
    (oaTextDelta m s).finalized = s.finalized := by
  unfold oaTextDelta; split_ifs <;> rfl

theorem oaTextDone_finalized (m : OAMsg) (s : Session) :
    (oaTextDone m s).finalized = s.finalized := by
  unfold oaTextDone; split_ifs <;> simp [flush_finalized]

theorem oaRelay_fst (m : OAMsg) (s : Session) : (oaRelay m s).1 = s := by
  unfold oaRelay; split_ifs <;> rfl

theorem oaTranscriptionA_streamSid (m : OAMsg) (s : Session) :
    (oaTranscriptionA m s).streamSid = s.streamSid := by
  unfold oaTranscriptionA; split_ifs <;> rfl

theorem oaTranscriptionB_streamSid (m : OAMsg) (s : Session) :
    (oaTranscriptionB m s).streamSid = s.streamSid := by
  unfold oaTranscriptionB; split_ifs <;> rfl

theorem oaTextDelta_streamSid (m : OAMsg) (s : Session) :
    (oaTextDelta m s).streamSid = s.streamSid := by
  unfold oaTextDelta; split_ifs <;> rfl

theorem oaTextDone_streamSid (m : OAMsg) (s : Session) :
    (oaTextDone m s).streamSid = s.streamSid := by
  unfold oaTextDone; split_ifs <;> simp [flush_streamSid]

theorem oaMsgHandler_finalized (s : Session) (m : OAMsg) :
    (oaMsgHandler s m).1.finalized = s.finalized := by
  unfold oaMsgHandler
  split_ifs
  · rfl
  · rw [oaRelay_fst, oaTextDone_finalized, oaTextDelta_finalized, oaTranscriptionB_finalized,
      oaTranscriptionA_finalized]

theorem oaMsgHandler_streamSid (s : Session) (m : OAMsg) :
    (oaMsgHandler s m).1.streamSid = s.streamSid := by
  unfold oaMsgHandler
  split_ifs
  · rfl
  · rw [oaRelay_fst, oaTextDone_streamSid, oaTextDelta_streamSid, oaTranscriptionB_streamSid,
      oaTranscriptionA_streamSid]

theorem reportsOf_oaRelay (m : OAMsg) (s : Session) : reportsOf (oaRelay m s).2 = [] := by
  unfold oaRelay; split_ifs <;> simp [reportsOf]

theorem reportsOf_oaMsgHandler (s : Session) (m : OAMsg) :
    reportsOf (oaMsgHandler s m).2 = [] := by
  unfold oaMsgHandler
  split_ifs
  · simp [reportsOf]
  · rw [reportsOf_oaRelay]

end CareBridge

namespace CareBridge

/-! ## Termination-path lemmas -/

theorem terminate_fst_finalized (t : Int) (fr cr : String) (s : Session) :
    (terminate t fr cr s).1.finalized = true := by
  unfold terminate
  rw [cleanup_fst]
  exact finalize_fst_finalized t fr s

theorem terminate_fst_twilioOpen (t : Int) (fr cr : String) (s : Session) :
    (terminate t fr cr s).1.twilioOpen = false := by
  unfold terminate
  rw [cleanup_fst]

theorem terminate_fst_streamSid (t : Int) (fr cr : String) (s : Session) :
    (terminate t fr cr s).1.streamSid = s.streamSid := by
  unfold terminate
  rw [cleanup_fst]
  exact finalize_fst_streamSid t fr s

theorem terminate_fst_endedAt_of_some (t : Int) (fr cr : String) (s : Session) (x : Int)
    (h : s.endedAt = some x) : (terminate t fr cr s).1.endedAt = some x := by
  unfold terminate
  rw [cleanup_fst]
  exact finalize_fst_endedAt_of_some t fr s x h

theorem reportsOf_terminate_len (t : Int) (fr cr : String) (s : Session) :
    (reportsOf (terminate t fr cr s).2).length = if s.finalized = true then 0 else 1 := by
  unfold terminate
  rw [reportsOf_append, reportsOf_cleanup]
  simpa using reportsOf_finalize_len t fr s

theorem reportsOf_terminate_reason (t : Int) (fr cr : String) (s : Session)
    (h : s.finalized = false) :
    (reportsOf (terminate t fr cr s).2).map CallReport.reason = [fr] := by
  unfold terminate
  rw [reportsOf_append, reportsOf_cleanup]
  simpa using reportsOf_finalize_reason t fr s h

theorem reportsOf_terminate_of_finalized (t : Int) (fr cr : String) (s : Session)
    (h : s.finalized = true) :
    reportsOf (terminate t fr cr s).2 = [] := by
  unfold terminate
  rw [reportsOf_append, reportsOf_cleanup, finalize_of_finalized t fr s h]
  rfl

theorem terminate_mem_closeTw (t : Int) (fr cr : String) (s : Session)
    (h : s.twilioOpen = true) :
    Action.closeTw 1000 cr ∈ (terminate t fr cr s).2 := by
  unfold terminate cleanup
  have hx : (finalizeAndReport t fr s).1.twilioOpen = true := by
    rw [finalize_fst_twilioOpen]; exact h
  simp only [hx, if_true]
  simp

/-! ## The finalize-once budget -/

theorem twMsgHandler_budget (t : Int) (s : Session) (m : TwMsg) :
    (reportsOf (twMsgHandler t s m).2).length
        + (if (twMsgHandler t s m).1.finalized = true then 0 else 1)
      ≤ (if s.finalized = true then 0 else 1) := by
  unfold twMsgHandler
  by_cases h1 : m.event = ""
  · simp [h1, reportsOf]
  · by_cases h2 : m.event = "start"
    · simp [h1, h2, reportsOf]
    · by_cases h3 : m.event = "media"
      · rw [if_neg h1, if_neg h2, if_pos h3]
        split_ifs <;> simp [reportsOf]
      · by_cases h4 : m.event = "stop"
        · rw [if_neg h1, if_neg h2, if_neg h3, if_pos h4]
          simp only [reportsOf_append, List.length_append, terminate_fst_finalized,
            reportsOf_terminate_len]
          split_ifs <;> simp_all [reportsOf]
        · simp [h1, h2, h3, h4, reportsOf]

theorem step_budget (t : Int) (s : Session) (e : Ev) :
    (reportsOf (step t s e).2).length + (if (step t s e).1.finalized = true then 0 else 1)
      ≤ (if s.finalized = true then 0 else 1) := by
  cases e with
  | oaOpen => simp [step, reportsOf]
  | oaMsg m =>
      simp only [step, oaMsgHandler_finalized, reportsOf_oaMsgHandler]
      simp
  | oaClose code =>
      simp only [step, reportsOf_terminate_len, terminate_fst_finalized]
      simp
  | oaError =>
      simp only [step, reportsOf_terminate_len, terminate_fst_finalized]
      simp
  | twMsg m => exact twMsgHandler_budget t s m
  | twClose =>
      simp only [step, reportsOf_terminate_len, terminate_fst_finalized]
      simp
  | twError =>
      simp only [step, reportsOf_terminate_len, terminate_fst_finalized]
      simp

theorem run_budget (evts : List (Int × Ev)) :
    ∀ s : Session,
      (reportsOf (run s evts).2).length + (if (run s evts).1.finalized = true then 0 else 1)
        ≤ (if s.finalized = true then 0 else 1) := by
  induction evts with
  | nil => intro s; simp [run, reportsOf]
  | cons te rest ih =>
      intro s
      have h1 := step_budget te.1 s te.2
      have h2 := ih (step te.1 s te.2).1
      simp only [run, reportsOf_append, List.length_append]
      split_ifs at h1 h2 ⊢ <;> omega

end CareBridge

namespace CareBridge

/-- The integer form of the duration rounding agrees with rounding the exact
rational quotient to the nearest integer (ties toward positive infinity). -/
theorem roundDivThousand_eq_round (d : Int) : roundDivThousand d = round ((d : ℚ) / 1000) := by
  rw [round_eq]
  have h : (d : ℚ) / 1000 + 1 / 2 = ((d + 500 : ℤ) : ℚ) / ((1000 : ℕ) : ℚ) := by
    push_cast
    ring
  rw [h, Rat.floor_intCast_div_natCast]
  rfl

end CareBridge

open CareBridge Buffered

/-- C1: for every session (fresh per downstream connection) and every sequence
of termination signals of any kind, order and multiplicity — downstream stop,
downstream close or error, upstream close or error — the body of
`finalizeAndReport` past the `finalized` latch runs at most once, so at most
one call-report emission is attempted per session; later calls are no-ops. -/
theorem claim1_finalize_once (meta : Meta) (ctx : String) (t0 : Int)
    (evts : List (Int × Ev)) :
    (reportsOf (run (initSession meta ctx t0) evts).2).length ≤ 1 := by
  have h := run_budget evts (initSession meta ctx t0)
  have hf : (initSession meta ctx t0).finalized = false := rfl
  rw [hf] at h
  simp only [Bool.false_eq_true, if_false] at h
  split_ifs at h <;> omega

/-- C4: the `duration_seconds` field of the emitted call report equals
`max(0, round((endedAt - startedAt) / 1000))` with rounding to nearest (ties
toward positive infinity), and is never negative. -/
theorem claim4_duration_seconds (t : Int) (reason : String) (s : Session) (e : Int)
    (hf : s.finalized = false) (he : s.endedAt = some e) :
    (reportsOf (finalizeAndReport t reason s).2).length = 1 ∧
    ∀ r ∈ reportsOf (finalizeAndReport t reason s).2,
      r.duration_seconds = max 0 (round (((e - s.startedAt : ℤ) : ℚ) / 1000)) ∧
      0 ≤ r.duration_seconds := by
  have key : durationSeconds s.startedAt e
      = max 0 (round (((e - s.startedAt : ℤ) : ℚ) / 1000)) := by
    unfold durationSeconds
    rw [roundDivThousand_eq_round]
  constructor
  · rw [reportsOf_finalize_len]
    simp [hf]
  · intro r hr
    simp only [finalizeAndReport, hf, Bool.false_eq_true, if_false, reportsOf,
      List.filterMap_cons, List.filterMap_nil, he, Option.getD_some, flush_startedAt,
      List.mem_cons, List.not_mem_nil, or_false] at hr
    subst hr
    refine ⟨?_, ?_⟩
    · simpa using key
    · simp only []
      rw [show ({ s with finalized := true, endedAt := some e } : Session).startedAt
            = s.startedAt from rfl] at *
      exact le_max_left 0 _

/-- C8: a downstream connection arriving while no voice-model credential is
configured is closed immediately with the distinguishing close code 1011, no
session is created, and no call report is emitted for it. -/
theorem claim8_missing_credential (key : String) (meta : Meta) (ctx : String) (t0 : Int)
    (h : key = "") :
    handleConnection key meta ctx t0
      = (none, [Action.closeTw 1011 "Missing OPENAI_API_KEY"]) ∧
    reportsOf (handleConnection key meta ctx t0).2 = [] := by
  subst h
  refine ⟨by simp [handleConnection], by simp [handleConnection, reportsOf]⟩

/-- Witness for C8 at a concrete connection with an empty credential. -/
theorem claim8_witness :
    handleConnection "" {} "c0" 0
      = (none, [Action.closeTw 1011 "Missing OPENAI_API_KEY"]) ∧
    reportsOf (handleConnection "" {} "c0" 0).2 = [] :=
  claim8_missing_credential "" {} "c0" 0 rfl

/-- C9: with no destination URL or no shared secret configured, the report
emitter returns a skipped result and performs no request; on a configured
destination it performs exactly one request carrying the shared secret in the
`X-Call-Report-Secret` header; in all cases it returns a result value (the
thrown branch of the fetch outcome is folded into a caught result), so
delivery failure cannot propagate out of the emitter. -/
theorem claim9_report_emitter (url secret payload : String) (outcome : FetchOutcome) :
    (url = "" →
      postCallReport url secret payload outcome
        = (DeliveryResult.skipped "missing CALL_REPORT_URL", [])) ∧
    (url ≠ "" → secret = "" →
      postCallReport url secret payload outcome
        = (DeliveryResult.skipped "missing CALL_REPORT_SECRET", [])) ∧
    (url ≠ "" → secret ≠ "" →
      (postCallReport url secret payload outcome).2.map HttpRequest.url = [url] ∧
      ∀ rq ∈ (postCallReport url secret payload outcome).2,
        ("X-Call-Report-Secret", secret) ∈ rq.headers) := by
  refine ⟨fun h1 => ?_, fun h1 h2 => ?_, fun h1 h2 => ?_⟩
  · simp [postCallReport, h1]
  · simp [postCallReport, h1, h2]
  · cases outcome <;> simp [postCallReport, h1, h2]

/-- Witness for C9: a missing URL is skipped without a request, and a
configured destination issues exactly one request to it. -/
theorem claim9_witness :
    postCallReport "" "s" "p" (FetchOutcome.thrown "boom")
      = (DeliveryResult.skipped "missing CALL_REPORT_URL", []) ∧
    (postCallReport "https://r.example" "s" "p"
        (FetchOutcome.response true 200 "ok")).2.map HttpRequest.url
      = ["https://r.example"] := by
  refine ⟨(claim9_report_emitter "" "s" "p" (FetchOutcome.thrown "boom")).1 rfl, ?_⟩
  exact ((claim9_report_emitter "https://r.example" "s" "p"
    (FetchOutcome.response true 200 "ok")).2.2 (by decide) (by decide)).1

/-- C10: an upstream audio-delta event (either recognized type name) arriving
while `streamSid` is still null is silently dropped: no outbound media frame
is sent downstream and the session state is left entirely unchanged. -/
theorem claim10_drop_agent_audio_before_start (t : Int) (s : Session) (ty d : String)
    (hty : ty = "response.audio.delta" ∨ ty = "output_audio.delta")
    (_hd : d ≠ "") (hsid : s.streamSid = none) :
    step t s (Ev.oaMsg { type := ty, delta := some d }) = (s, []) := by
  rcases hty with rfl | rfl <;>
    simp [step, oaMsgHandler, oaTranscriptionA, oaTranscriptionB, oaTextDelta, oaTextDone,
      oaRelay, jsTruthy, hsid]

/-- Witness for C10 at a concrete agent audio chunk on a fresh session. -/
theorem claim10_witness :
    step 0 (initSession {} "c0" 0)
        (Ev.oaMsg { type := "response.audio.delta", delta := some "QUJD" })
      = (initSession {} "c0" 0, []) :=
  claim10_drop_agent_audio_before_start 0 (initSession {} "c0" 0)
    "response.audio.delta" "QUJD" (Or.inl rfl) (by decide) rfl

namespace CareBridge

/-- An event is a downstream start frame. -/
def isStartEv : Ev → Prop
  | Ev.twMsg m => m.event = "start"
  | _ => False

end CareBridge

/-- C5 counterexample: a second start event carrying a different streamSid
reassigns `streamSid`; after processing start frames with streamSid A and
then B, the session holds B, not the first-set value A. -/
theorem claim5_counterexample :
    (run (initSession {} "c0" 0)
        [(0, Ev.twMsg { event := "start", streamSid := some "A" })]).1.streamSid
      = some "A" ∧
    (run (initSession {} "c0" 0)
        [(0, Ev.twMsg { event := "start", streamSid := some "A" }),
         (1, Ev.twMsg { event := "start", streamSid := some "B" })]).1.streamSid
      = some "B" ∧
    (some "B" : Option String) ≠ some "A" := by
  refine ⟨by decide, by decide, by decide⟩

/-- C5 amended: `streamSid` is changed only by start events — every event
that is not a start frame leaves it unchanged; a later start event, however,
overwrites it with that frame's streamSid. -/
theorem claim5_amended (t : Int) (s : Session) (e : Ev) (h : ¬ isStartEv e) :
    (step t s e).1.streamSid = s.streamSid := by
  cases e with
  | oaOpen => rfl
  | oaMsg m => exact oaMsgHandler_streamSid s m
  | oaClose code => simp [step, terminate_fst_streamSid]
  | oaError => simp [step, terminate_fst_streamSid]
  | twMsg m =>
      have hm : ¬ m.event = "start" := h
      simp only [step]
      unfold twMsgHandler
      by_cases h1 : m.event = ""
      · simp [h1]
      · rw [if_neg h1, if_neg hm]
        by_cases h3 : m.event = "media"
        · rw [if_pos h3]
          split_ifs <;> rfl
        · rw [if_neg h3]
          by_cases h4 : m.event = "stop"
          · rw [if_pos h4]
            simp [terminate_fst_streamSid]
          · rw [if_neg h4]
  | twClose => simp [step, terminate_fst_streamSid]
  | twError => simp [step, terminate_fst_streamSid]

/-- Witness for the amended C5: a downstream close event on a fresh session
leaves `streamSid` unchanged. -/
theorem claim5_witness :
    ¬ isStartEv Ev.twClose ∧
    (step 7 (initSession {} "c0" 0) Ev.twClose).1.streamSid
      = (initSession {} "c0" 0).streamSid :=
  ⟨by simp [isStartEv], claim5_amended 7 (initSession {} "c0" 0) Ev.twClose (by simp [isStartEv])⟩

/-- C7: on an upstream transport close or error, the session records
`endedAt` when unset (and keeps it when set), finalizes — emitting exactly
one report tagged with the upstream-closure reason when not already
finalized — and ends with the downstream socket closed, issuing a downstream
close action when it was still open. -/
theorem claim7_upstream_failure_finalizes (t : Int) (s : Session) (code : Nat) :
    ((step t s (Ev.oaClose code)).1.endedAt = some (s.endedAt.getD t) ∧
     (step t s (Ev.oaClose code)).1.finalized = true ∧
     (step t s (Ev.oaClose code)).1.twilioOpen = false ∧
     (s.twilioOpen = true →
       Action.closeTw 1000 ("openai_closed_" ++ toString code)
         ∈ (step t s (Ev.oaClose code)).2) ∧
     (s.finalized = false →
       (reportsOf (step t s (Ev.oaClose code)).2).map CallReport.reason
         = ["openai_closed_" ++ toString code])) ∧
    ((step t s Ev.oaError).1.endedAt = some (s.endedAt.getD t) ∧
     (step t s Ev.oaError).1.finalized = true ∧
     (step t s Ev.oaError).1.twilioOpen = false ∧
     (s.twilioOpen = true →
       Action.closeTw 1000 "openai_error" ∈ (step t s Ev.oaError).2) ∧
     (s.finalized = false →
       (reportsOf (step t s Ev.oaError).2).map CallReport.reason = ["openai_error"])) := by
  constructor
  · refine ⟨?_, ?_, ?_, fun hw => ?_, fun hf => ?_⟩
    · exact terminate_fst_endedAt_of_some _ _ _ _ _ rfl
    · exact terminate_fst_finalized _ _ _ _
    · exact terminate_fst_twilioOpen _ _ _ _
    · exact terminate_mem_closeTw _ _ _ _ (by simpa using hw)
    · exact reportsOf_terminate_reason _ _ _ _ (by simpa using hf)
  · refine ⟨?_, ?_, ?_, fun hw => ?_, fun hf => ?_⟩
    · exact terminate_fst_endedAt_of_some _ _ _ _ _ rfl
    · exact terminate_fst_finalized _ _ _ _
    · exact terminate_fst_twilioOpen _ _ _ _
    · exact terminate_mem_closeTw _ _ _ _ (by simpa using hw)
    · exact reportsOf_terminate_reason _ _ _ _ (by simpa using hf)

/-- Witness for C7 at a fresh session and close code 1006. -/
theorem claim7_witness :
    (step 5 (initSession {} "c0" 0) (Ev.oaClose 1006)).1.endedAt = some 5 ∧
    (step 5 (initSession {} "c0" 0) (Ev.oaClose 1006)).1.finalized = true ∧
    (step 5 (initSession {} "c0" 0) (Ev.oaClose 1006)).1.twilioOpen = false ∧
    Action.closeTw 1000 "openai_closed_1006" ∈ (step 5 (initSession {} "c0" 0) (Ev.oaClose 1006)).2 ∧
    (reportsOf (step 5 (initSession {} "c0" 0) (Ev.oaClose 1006)).2).map CallReport.reason
      = ["openai_closed_1006"] := by
  have h := (claim7_upstream_failure_finalizes 5 (initSession {} "c0" 0) 1006).1
  exact ⟨h.1, h.2.1, h.2.2.1, h.2.2.2.1 rfl, h.2.2.2.2 rfl⟩

namespace CareBridge

/-- A partial assistant-text delta frame. -/
def deltaMsg (d : String) : OAMsg :=
  { type := "response.output_text.delta", delta := some d }

/-- An assistant text-done frame. -/
def doneMsg : OAMsg :=
  { type := "response.output_text.done" }

theorem jsTruthy_some (x : String) : jsTruthy (some x) = (x != "") := rfl

theorem join_cons (d : String) (ds : List String) :
    String.join (d :: ds) = d ++ String.join ds := by
  simp [String.join_eq]
  rfl

theorem step_deltaMsg (t : Int) (s : Session) (d : String) :
    step t s (Ev.oaMsg (deltaMsg d)) = ({ s with assistantBuf := s.assistantBuf ++ d }, []) := by
  by_cases hd : d = ""
  · subst hd
    simp [step, oaMsgHandler, deltaMsg, oaTranscriptionA, oaTranscriptionB, oaTextDelta,
      oaTextDone, oaRelay, jsTruthy, String.append_empty]
  · simp [step, oaMsgHandler, deltaMsg, oaTranscriptionA, oaTranscriptionB, oaTextDelta,
      oaTextDone, oaRelay, jsTruthy, hd]

theorem step_doneMsg (t : Int) (s : Session) :
    step t s (Ev.oaMsg doneMsg) = (flushAssistantLine s, []) := by
  simp [step, oaMsgHandler, doneMsg, oaTranscriptionA, oaTranscriptionB, oaTextDelta,
    oaTextDone, oaRelay, jsTruthy]

theorem run_append (l1 l2 : List (Int × Ev)) :
    ∀ s : Session,
      run s (l1 ++ l2)
        = ((run (run s l1).1 l2).1, (run s l1).2 ++ (run (run s l1).1 l2).2) := by
  induction l1 with
  | nil => intro s; simp [run]
  | cons te rest ih =>
      intro s
      simp only [List.cons_append, run, List.append_eq]
      rw [ih]
      simp [List.append_assoc]

theorem run_deltas (ds : List String) :
    ∀ s : Session,
      run s (ds.map fun d => ((0 : Int), Ev.oaMsg (deltaMsg d)))
        = ({ s with assistantBuf := s.assistantBuf ++ String.join ds }, []) := by
  induction ds with
  | nil =>
      intro s
      simp [run, String.join, String.append_empty]
  | cons d ds ih =>
      intro s
      simp only [List.map_cons, run, step_deltaMsg, ih]
      simp [join_cons, String.append_assoc]

end CareBridge

/-- C3: a sequence of partial assistant-text deltas followed by one text-done
event appends exactly one assistant-tagged line holding the concatenation of
the deltas trimmed of surrounding whitespace, and resets the accumulator; a
buffer that trims to the empty string yields no line. -/
theorem claim3_transcript_assembly (s : Session) (ds : List String)
    (h : s.assistantBuf = "") :
    (run s ((ds.map fun d => ((0 : Int), Ev.oaMsg (deltaMsg d)))
        ++ [((0 : Int), Ev.oaMsg doneMsg)])).1.transcriptLines
      = s.transcriptLines
          ++ (if jsTrim (String.join ds) = "" then []
              else ["Assistant: " ++ jsTrim (String.join ds)]) ∧
    (run s ((ds.map fun d => ((0 : Int), Ev.oaMsg (deltaMsg d)))
        ++ [((0 : Int), Ev.oaMsg doneMsg)])).1.assistantBuf = "" := by
  rw [run_append]
  rw [run_deltas ds s]
  simp only [run, step_doneMsg, h, String.empty_append]
  by_cases ht : jsTrim (String.join ds) = ""
  · simp [flushAssistantLine, ht]
  · simp [flushAssistantLine, ht]

/-- Witness for C3: deltas "Hel" and "lo " then done yield the single line
for "Hello" on a fresh session. -/
theorem claim3_witness :
    (initSession {} "c0" 0).assistantBuf = "" ∧
    (run (initSession {} "c0" 0)
        ((["Hel", "lo "].map fun d => ((0 : Int), Ev.oaMsg (deltaMsg d)))
          ++ [((0 : Int), Ev.oaMsg doneMsg)])).1.transcriptLines
      = ["Assistant: Hello"] := by
  refine ⟨rfl, ?_⟩
  have h := (claim3_transcript_assembly (initSession {} "c0" 0) ["Hel", "lo "] rfl).1
  rw [h]
  decide

namespace Buffered

theorem run3_append (l1 l2 : List Ev3) :
    ∀ s : S3,
      run3 s (l1 ++ l2)
        = ((run3 (run3 s l1).1 l2).1, (run3 s l1).2 ++ (run3 (run3 s l1).1 l2).2) := by
  induction l1 with
  | nil => intro s; simp [run3]
  | cons e rest ih =>
      intro s
      simp only [List.cons_append, run3, List.append_eq]
      rw [ih]
      simp [List.append_assoc]

theorem foldl_pushCap (ps : List String) :
    ∀ b : List String, b.length ≤ 200 →
      ps.foldl pushCap b = (b ++ ps).drop (b.length + ps.length - 200) := by
  induction ps with
  | nil =>
      intro b hb
      simp [Nat.sub_eq_zero_of_le hb]
  | cons p ps ih =>
      intro b hb
      simp only [List.foldl_cons]
      rcases lt_or_eq_of_le hb with h | h
      · have hlen : (b ++ [p]).length = b.length + 1 := by
          simp
        have hpush : pushCap b p = b ++ [p] := by
          have hnot : ¬ 200 < (b ++ [p]).length := by
            rw [hlen]; omega
          unfold pushCap
          rw [if_neg hnot]
        rw [hpush, ih (b ++ [p]) (by rw [hlen]; omega)]
        have e1 : (b ++ [p]) ++ ps = b ++ p :: ps := by
          simp
        have e2 : (b ++ [p]).length + ps.length - 200
            = b.length + (p :: ps).length - 200 := by
          rw [hlen]; simp; omega
        rw [e1, e2]
      · rcases b with _ | ⟨x, xs⟩
        · simp at h
        · have hx : xs.length = 199 := by simpa using h.symm
          have hpush : pushCap (x :: xs) p = xs ++ [p] := by
            have hgt : 200 < ((x :: xs) ++ [p]).length := by
              simp [hx]
            simp only [pushCap, hgt, if_pos]
            rfl
          rw [hpush, ih (xs ++ [p]) (by simp [hx])]
          have e1 : (xs ++ [p]) ++ ps = xs ++ p :: ps := by
            simp
          have e2 : (xs ++ [p]).length + ps.length - 200 = ps.length := by
            simp [hx]
          have e3 : (x :: xs) ++ p :: ps = x :: (xs ++ p :: ps) := by
            simp
          have e4 : (x :: xs).length + (p :: ps).length - 200 = ps.length + 1 := by
            simp [hx]
          rw [e1, e2, e3, e4, List.drop_succ_cons]

theorem step3_media_not_ready (s : S3) (p : String) (hp : p ≠ "") (hr : s.openaiReady = false) :
    step3 s (Ev3.twMsg (mediaMsg p))
      = ({ s with pendingAudio := pushCap s.pendingAudio p }, []) := by
  simp [step3, mediaMsg, jsTruthy, hp, hr]

theorem run3_medias (ps : List String) :
    ∀ s : S3, (∀ p ∈ ps, p ≠ "") → s.openaiReady = false →
      run3 s (ps.map fun p => Ev3.twMsg (mediaMsg p))
        = ({ s with pendingAudio := ps.foldl pushCap s.pendingAudio }, []) := by
  induction ps with
  | nil =>
      intro s _ _
      simp [run3]
  | cons p ps ih =>
      intro s hp hr
      simp only [List.map_cons, run3, step3_media_not_ready s p (hp p (by simp)) hr]
      rw [ih { s with pendingAudio := pushCap s.pendingAudio p }
        (fun q hq => hp q (by simp [hq])) hr]
      simp [List.foldl_cons]

theorem step3_open (s : S3) :
    step3 s Ev3.oaOpen
      = ({ s with openaiOpen := true, openaiReady := true, pendingAudio := [] },
          Act3.sendOA OAOut.sessionUpdate
            :: (s.pendingAudio.map fun p => Act3.sendOA (OAOut.append p))) := rfl

theorem appendsOf_flush (l : List String) :
    appendsOf (Act3.sendOA OAOut.sessionUpdate
        :: (l.map fun p => Act3.sendOA (OAOut.append p))) = l := by
  induction l with
  | nil => rfl
  | cons p l ih =>
      simpa [appendsOf, List.filterMap_cons] using ih

end Buffered


/-- C2: caller audio chunks arriving before the upstream connection is ready
are retained in the bounded pending buffer (capacity 200, drop-oldest on
overflow) and, once the upstream socket opens, are delivered upstream in
their original arrival order as `input_audio_buffer.append` frames: for any
pre-ready chunk sequence exactly the chunks beyond capacity are dropped,
oldest first — so no chunk is lost while the buffer has spare capacity, and
sending capacity + 5 chunks loses exactly the 5 oldest. -/
theorem claim2_pending_audio_flush (ps : List String) (hp : ∀ p ∈ ps, p ≠ "") :
    appendsOf (run3 init3
        ((ps.map fun p => Ev3.twMsg (mediaMsg p)) ++ [Ev3.oaOpen])).2
      = ps.drop (ps.length - 200) := by
  rw [run3_append, run3_medias ps init3 hp rfl]
  simp only [run3, step3_open, List.append_nil, List.nil_append]
  rw [appendsOf_flush]
  rw [show init3.pendingAudio = [] from rfl, foldl_pushCap ps [] (by simp)]
  simp

/-- Witness for C2: 205 identical non-empty chunks sent before the upstream
socket opens yield exactly the newest 200 delivered in order. -/
theorem claim2_witness :
    (∀ p ∈ List.replicate 205 "x", p ≠ "") ∧
    appendsOf (run3 init3
        (((List.replicate 205 "x").map fun p => Ev3.twMsg (mediaMsg p)) ++ [Ev3.oaOpen])).2
      = List.replicate 200 "x" := by
  have hp : ∀ p ∈ List.replicate 205 "x", p ≠ "" := by
    intro p hmem
    rw [List.eq_of_mem_replicate hmem]
    decide
  refine ⟨hp, ?_⟩
  rw [claim2_pending_audio_flush (List.replicate 205 "x") hp]
  rw [List.length_replicate]
  rfl

namespace Buffered

/-- The key state invariant of the buffered variant: whenever the upstream
session is ready and its socket open, the pending buffer is empty. -/
def ReadyInv (s : S3) : Prop :=
  s.openaiReady = true → s.openaiOpen = true → s.pendingAudio = []

theorem step3_ReadyInv (s : S3) (e : Ev3) (h : ReadyInv s) : ReadyInv (step3 s e).1 := by
  cases e with
  | oaOpen => intro _ _; simp [step3]
  | oaClose => intro _ h2; simp [step3, cleanup3] at h2
  | oaError => intro _ h2; simp [step3, cleanup3] at h2
  | twMsg m =>
      simp only [step3]
      by_cases h1 : m.event = ""
      · simpa [h1] using h
      · by_cases h2 : m.event = "start"
        · rw [if_neg h1, if_pos h2]
          intro ha hb
          exact h ha hb
        · by_cases h3 : m.event = "media"
          · rw [if_neg h1, if_neg h2, if_pos h3]
            split_ifs with hp hro
            · exact h
            · intro ha hb
              exfalso
              apply hro
              have ha' : s.openaiReady = true := ha
              have hb' : s.openaiOpen = true := hb
              simp [ha', hb']
            · exact h
          · by_cases h4 : m.event = "stop"
            · rw [if_neg h1, if_neg h2, if_neg h3, if_pos h4]
              intro _ h2'
              simp [cleanup3] at h2'
            · rw [if_neg h1, if_neg h2, if_neg h3, if_neg h4]
              exact h
  | twClose => intro _ h2; simp [step3, cleanup3] at h2
  | twError => intro _ h2; simp [step3, cleanup3] at h2

theorem run3_ReadyInv (evts : List Ev3) :
    ∀ s : S3, ReadyInv s → ReadyInv (run3 s evts).1 := by
  induction evts with
  | nil => intro s h; simpa [run3] using h
  | cons e rest ih =>
      intro s h
      simp only [run3]
      exact ih (step3 s e).1 (step3_ReadyInv s e h)

end Buffered

/-- C6 counterexample: after the upstream socket has opened (Ready) the
buffer is drained, but when the upstream transport then closes, a further
media frame is pushed back into the pending buffer — an operation adds a
chunk after Ready, refuting the claim that no operation ever does. -/
theorem claim6_counterexample :
    (run3 init3 [Ev3.oaOpen]).1.openaiReady = true ∧
    (run3 init3 [Ev3.oaOpen]).1.pendingAudio = [] ∧
    (run3 init3 [Ev3.oaOpen, Ev3.oaClose, Ev3.twMsg (mediaMsg "X")]).1.pendingAudio
      = ["X"] := by
  refine ⟨by decide, by decide, by decide⟩

/-- C6 amended: in every reachable state the pending buffer is non-empty
only while the upstream connection is not both ready and open: once the
upstream socket opens it is drained, and it stays empty for as long as the
upstream remains ready with its socket open; only after the upstream
transport has closed (the ready flag is never reset in this variant) can a
later media frame re-enqueue a chunk, and such chunks are never delivered. -/
theorem claim6_amended (evts : List Ev3)
    (h1 : (run3 init3 evts).1.openaiReady = true)
    (h2 : (run3 init3 evts).1.openaiOpen = true) :
    (run3 init3 evts).1.pendingAudio = [] := by
  have hinit : ReadyInv init3 := by
    intro ha _
    simp [init3] at ha
  exact run3_ReadyInv evts init3 hinit h1 h2

/-- Witness for the amended C6: immediately after the upstream socket opens,
the session is ready with an empty pending buffer. -/
theorem claim6_witness :
    (run3 init3 [Ev3.oaOpen]).1.openaiReady = true ∧
    (run3 init3 [Ev3.oaOpen]).1.openaiOpen = true ∧
    (run3 init3 [Ev3.oaOpen]).1.pendingAudio = [] :=
  ⟨rfl, rfl, claim6_amended [Ev3.oaOpen] rfl rfl⟩

/-- Witness for C4: a session started at 0 ms and ended at 2500 ms reports a
duration of 3 seconds. -/
theorem claim4_witness :
    (reportsOf (finalizeAndReport 9999 "twilio_stop"
        { initSession {} "c0" 0 with endedAt := some 2500 }).2).length = 1 ∧
    ∀ r ∈ reportsOf (finalizeAndReport 9999 "twilio_stop"
        { initSession {} "c0" 0 with endedAt := some 2500 }).2,
      r.duration_seconds = 3 := by
  have h := claim4_duration_seconds 9999 "twilio_stop"
    { initSession {} "c0" 0 with endedAt := some 2500 } 2500 rfl rfl
  refine ⟨h.1, fun r hr => ?_⟩
  have h2 := (h.2 r hr).1
  rw [show ({ initSession {} "c0" 0 with endedAt := some 2500 } : Session).startedAt
      = 0 from rfl] at h2
  rw [h2, round_eq]
  norm_num
